import Mathlib

/-!
Verification of `show_diff_proj.py`: a single-window GUI tool that loads an
image, lets the user select a rectangle with two mouse presses, and shows the
per-row pixel sums of the selected region in a modal popup.

The embedding models the `DiffractionWindow` controller state as an explicit
record, the Qt/matplotlib event handlers (`imagePressed`, `imageOnMotion`,
`imageReleased`, `browseFile`, `show_projection`) as state-transition
functions, and the numpy operations (elementwise normalization, slicing with
Python clamping semantics, `np.sum(..., axis=1)`) as list functions over `ℚ`.
IEEE-float division by zero (NaN/Inf) is modelled by `Option ℚ` with `none`
for the non-finite results; machine floats are otherwise modelled as exact
rationals.
-/

namespace DiffProj

/-- Python `int()` applied to a float: truncation toward zero. -/
def pyInt (q : ℚ) : ℤ := if 0 ≤ q then ⌊q⌋ else ⌈q⌉

/-- IEEE division as performed by numpy: a division whose divisor is `0`
produces NaN (when the dividend is also `0`) or ±Inf, none of which is a
finite number; we model all of these non-finite outcomes as `none`. -/
def npDiv (a b : ℚ) : Option ℚ := if b = 0 then none else some (a / b)

/-- `np.min` / `np.max` flatten a 2D array; we flatten a list of rows. -/
def flat2 (img : List (List ℚ)) : List ℚ := img.flatten

/-- `np.min(img)` for a 2D array (value irrelevant for the empty array,
which numpy rejects; every theorem below assumes a nonempty image). -/
def npMin (img : List (List ℚ)) : ℚ :=
  match flat2 img with
  | [] => 0
  | x :: xs => xs.foldl min x

/-- `np.max(img)` for a 2D array. -/
def npMax (img : List (List ℚ)) : ℚ :=
  match flat2 img with
  | [] => 0
  | x :: xs => xs.foldl max x

/-- The display buffer computed in `browseFile` for a 2D image:
`img = (img - np.min(img)) / (np.max(img) - np.min(img))` elementwise.
A zero range makes every division non-finite (`none`). -/
def normalizeGray (img : List (List ℚ)) : List (List (Option ℚ)) :=
  img.map (fun row => row.map (fun p => npDiv (p - npMin img) (npMax img - npMin img)))

/-- An RGB pixel of a multi-channel (`ndim > 2`) image: `uint8` channels. -/
abbrev RGBPix := ℕ × ℕ × ℕ

/-- Modelled from the spec: the luminance conversion
`Image.fromarray(img).convert("L")` is performed by the external imaging
collaborator; its documented contract is the ITU-R 601-2 luma transform
`L = R * 299/1000 + G * 587/1000 + B * 114/1000` on `uint8` channels,
with the result stored as an integer. -/
def lum (c : RGBPix) : ℕ := (c.1 * 299 + c.2.1 * 587 + c.2.2 * 114) / 1000

/-- A decoded image: `ndim == 2` (grayscale, arbitrary numeric values) or
`ndim > 2` (multi-channel, `uint8` RGB). -/
inductive Img where
  | gray (data : List (List ℚ))
  | color (data : List (List RGBPix))
deriving DecidableEq

/-- A point in image-axes data coordinates (`event.xdata`, `event.ydata`). -/
structure Pt where
  x : ℚ
  y : ℚ
deriving DecidableEq

/-- A `matplotlib.patches.Rectangle`, stored as anchor plus (possibly
negative) width and height, exactly as constructed in `imagePressed`. -/
structure RectPatch where
  x : ℚ
  y : ℚ
  w : ℚ
  h : ℚ
deriving DecidableEq

/-- The rectangle committed by the second press: anchored at the pending
start point, extending to the current press position. -/
def commitRect (sp p : Pt) : RectPatch :=
  ⟨sp.x, sp.y, p.x - sp.x, p.y - sp.y⟩

/-- The status-bar label `coord_label`: idle text `"Mouse: "`, the
one-corner text set on the first press, or the two-corner text set on
motion, with coordinates rendered through Python `int()`. -/
inductive StatusText where
  | idle
  | rectStart (x y : ℤ)
  | rectFull (x0 y0 x1 y1 : ℤ)
deriving DecidableEq

/-- What `browseFile` hands to `ax.imshow`: the normalized buffer for 2D
images (entries `none` when normalization was non-finite), the raw array
for multi-channel images. -/
inductive DisplayBuf where
  | grayBuf (data : List (List (Option ℚ)))
  | colorBuf (data : List (List RGBPix))
deriving DecidableEq

/-- The renderer input computed in `browseFile` from the decoded array. -/
def render : Img → DisplayBuf
  | .gray d => .grayBuf (normalizeGray d)
  | .color d => .colorBuf d

/-- The mutable state of `DiffractionWindow`: the image buffer, the
selection-gesture fields, the projection button enabled flag, the
status-bar text, and whether the canvas is shown (it starts hidden and a
hidden canvas receives no mouse events). -/
structure WState where
  image : Option Img
  start_point : Option Pt
  rect_patch : Option RectPatch
  last_rect_patch : Option RectPatch
  projEnabled : Bool
  coordText : StatusText
  canvasShown : Bool
  display : Option DisplayBuf
deriving DecidableEq

/-- The state set up in `DiffractionWindow.__init__`. -/
def init : WState :=
  { image := none
    start_point := none
    rect_patch := none
    last_rect_patch := none
    projEnabled := false
    coordText := .idle
    canvasShown := false
    display := none }

/-- `DiffractionWindow.imagePressed`. `inB` is `event.inaxes ==
self.canvas.axes`; a hidden canvas delivers no events, so an effective
press also requires the canvas to be shown. -/
def imagePressed (s : WState) (inB : Bool) (p : Pt) : WState :=
  if s.canvasShown && inB then
    match s.start_point with
    | none =>
        { s with
          start_point := some p
          coordText := .rectStart (pyInt p.x) (pyInt p.y)
          projEnabled := false
          last_rect_patch := none }
    | some sp =>
        { s with
          last_rect_patch := some (commitRect sp p)
          start_point := none
          rect_patch := none
          projEnabled := true }
  else s

/-- `DiffractionWindow.imageOnMotion`: only acts while a selection is in
progress; updates the transient preview patch and the status text. -/
def imageOnMotion (s : WState) (inB : Bool) (p : Pt) : WState :=
  if s.canvasShown && inB then
    match s.start_point with
    | none => s
    | some sp =>
        { s with
          rect_patch := some (commitRect sp p)
          coordText := .rectFull (pyInt sp.x) (pyInt sp.y) (pyInt p.x) (pyInt p.y) }
  else s

/-- `DiffractionWindow.imageReleased`: an intentional no-op. -/
def imageReleased (s : WState) (_inB : Bool) (_p : Pt) : WState := s

/-- `DiffractionWindow.browseFile`, successful-decode branch: replaces the
image buffer, recomputes the display buffer (`ax.cla()` plus `imshow`),
shows the canvas, resets the status text and disables projection. The
selection fields `start_point`, `rect_patch` and `last_rect_patch` are not
assigned anywhere in this method. -/
def browseFile (s : WState) (img : Img) : WState :=
  { s with
    image := some img
    display := some (render img)
    canvasShown := true
    coordText := .idle
    projEnabled := false }

/-- Convert a Python slice endpoint to an absolute index into a list of
length `n`: negative endpoints count from the end (then clip at `0`),
nonnegative ones clip at `n`. -/
def pySliceIdx (n : ℕ) (i : ℤ) : ℕ :=
  if i < 0 then (i + n).toNat else min i.toNat n

/-- Python slicing `l[a : b]` with its silent clamping semantics: never an
error, out-of-range endpoints are clipped. -/
def pySlice {α : Type} (l : List α) (a b : ℤ) : List α :=
  ((l.drop (pySliceIdx l.length a)).take (pySliceIdx l.length b - pySliceIdx l.length a))

/-- The `img.ndim > 2` branch of `show_projection`: a multi-channel image
is converted to single-channel luminance; a 2D image is used as is. -/
def toGray : Img → List (List ℚ)
  | .gray d => d
  | .color d => d.map (fun row => row.map (fun c => (lum c : ℚ)))

/-- The integer bounds computed in `show_projection` from
`last_rect_patch.get_bbox().get_points()`: the bbox corners are
`(x, y)` and `(x + w, y + h)`, and the code takes `int(min(...))` and
`int(max(...))` per coordinate, giving `(x0, x1, y0, y1)`. -/
def bboxBounds (r : RectPatch) : ℤ × ℤ × ℤ × ℤ :=
  (pyInt (min r.x (r.x + r.w)), pyInt (max r.x (r.x + r.w)),
   pyInt (min r.y (r.y + r.h)), pyInt (max r.y (r.y + r.h)))

/-- `region = img[y0:y1, x0:x1]; np.sum(region.astype(np.float32), axis=1)`:
crop to rows `[y0,y1)` and columns `[x0,x1)`, then one sum per row. -/
def grayProj (g : List (List ℚ)) (r : RectPatch) : List ℚ :=
  ((pySlice g (bboxBounds r).2.2.1 (bboxBounds r).2.2.2).map
      (fun row => pySlice row (bboxBounds r).1 (bboxBounds r).2.1)).map List.sum

/-- `DiffractionWindow.show_projection`: `none` when the guard
`self.image is None or self.last_rect_patch is None` makes it return
without a popup, otherwise the projection sequence handed to `PlotDialog`. -/
def showProjection (s : WState) : Option (List ℚ) :=
  match s.image, s.last_rect_patch with
  | some img, some r => some (grayProj (toGray img) r)
  | _, _ => none

/-- The user-input events the window reacts to. -/
inductive Ev where
  | load (img : Img)
  | loadCancel
  | press (inB : Bool) (p : Pt)
  | motion (inB : Bool) (p : Pt)
  | release (inB : Bool) (p : Pt)
  | trigger

/-- One event step. `show_projection` reads state but never writes it
(it works on `self.image.copy()`), so `trigger` leaves the state fixed;
a cancelled file dialog only prints a notice. -/
def step (s : WState) : Ev → WState
  | .load img => browseFile s img
  | .loadCancel => s
  | .press inB p => imagePressed s inB p
  | .motion inB p => imageOnMotion s inB p
  | .release inB p => imageReleased s inB p
  | .trigger => s

/-- Run the window from start-up through a list of events. -/
def run (evs : List Ev) : WState := evs.foldl step init

/-- The 4×4 example array of incrementing values from the spec. -/
def ex4 : List (List ℚ) :=
  [[0, 1, 2, 3], [4, 5, 6, 7], [8, 9, 10, 11], [12, 13, 14, 15]]

/-- A sample grayscale image used in concrete traces. -/
def imgA : Img := .gray [[0, 1], [2, 3]]

/-- A second sample grayscale image used in concrete traces. -/
def imgB : Img := .gray [[5, 6], [7, 8]]

/-! ### Helper lemmas -/

lemma foldl_min_le_init (xs : List ℚ) (a : ℚ) : xs.foldl min a ≤ a := by
  induction xs generalizing a with
  | nil => exact le_refl a
  | cons x xs ih =>
      calc (x :: xs).foldl min a = xs.foldl min (min a x) := rfl
        _ ≤ min a x := ih (min a x)
        _ ≤ a := min_le_left _ _

lemma foldl_min_le_mem (xs : List ℚ) (a y : ℚ) (hy : y ∈ xs) : xs.foldl min a ≤ y := by
  induction xs generalizing a with
  | nil => cases hy
  | cons x xs ih =>
      rcases List.mem_cons.mp hy with hy | hy
      · subst hy
        calc (y :: xs).foldl min a = xs.foldl min (min a y) := rfl
          _ ≤ min a y := foldl_min_le_init xs (min a y)
          _ ≤ y := min_le_right _ _
      · exact ih (min a x) hy

lemma le_foldl_max_init (xs : List ℚ) (a : ℚ) : a ≤ xs.foldl max a := by
  induction xs generalizing a with
  | nil => exact le_refl a
  | cons x xs ih =>
      calc a ≤ max a x := le_max_left _ _
        _ ≤ xs.foldl max (max a x) := ih (max a x)
        _ = (x :: xs).foldl max a := rfl

lemma le_foldl_max_mem (xs : List ℚ) (a y : ℚ) (hy : y ∈ xs) : y ≤ xs.foldl max a := by
  induction xs generalizing a with
  | nil => cases hy
  | cons x xs ih =>
      rcases List.mem_cons.mp hy with hy | hy
      · subst hy
        calc y ≤ max a y := le_max_right _ _
          _ ≤ xs.foldl max (max a y) := le_foldl_max_init xs (max a y)
          _ = (y :: xs).foldl max a := rfl
      · exact ih (max a x) hy

lemma npMin_le (img : List (List ℚ)) (p : ℚ) (hp : p ∈ flat2 img) : npMin img ≤ p := by
  unfold npMin
  rcases hf : flat2 img with _ | ⟨x, xs⟩
  · rw [hf] at hp; cases hp
  · rw [hf] at hp
    rcases List.mem_cons.mp hp with hp | hp
    · subst hp; exact foldl_min_le_init xs p
    · exact foldl_min_le_mem xs x p hp

lemma le_npMax (img : List (List ℚ)) (p : ℚ) (hp : p ∈ flat2 img) : p ≤ npMax img := by
  unfold npMax
  rcases hf : flat2 img with _ | ⟨x, xs⟩
  · rw [hf] at hp; cases hp
  · rw [hf] at hp
    rcases List.mem_cons.mp hp with hp | hp
    · subst hp; exact le_foldl_max_init xs p
    · exact le_foldl_max_mem xs x p hp

lemma pyInt_mono {a b : ℚ} (h : a ≤ b) : pyInt a ≤ pyInt b := by
  unfold pyInt
  by_cases ha : (0 : ℚ) ≤ a
  · rw [if_pos ha, if_pos (le_trans ha h)]
    exact Int.floor_le_floor h
  · rw [if_neg ha]
    by_cases hb : (0 : ℚ) ≤ b
    · rw [if_pos hb]
      calc ⌈a⌉ ≤ 0 := Int.ceil_le.mpr (by exact_mod_cast le_of_lt (not_le.mp ha))
        _ ≤ ⌊b⌋ := Int.floor_nonneg.mpr hb
    · rw [if_neg hb]
      exact Int.ceil_le_ceil h

lemma drop_take_clamp {α : Type} (l : List α) (a b : ℕ) :
    (l.drop (min a l.length)).take (min b l.length - min a l.length)
      = (l.drop a).take (b - a) := by
  rcases le_or_lt l.length a with h | h
  · rw [min_eq_right h, List.drop_length, List.drop_eq_nil_of_le h]
    simp
  · rw [min_eq_left h.le, List.take_eq_take]
    simp only [List.length_drop]
    omega

lemma pySlice_nonneg (a b : ℤ) (ha : 0 ≤ a) (hb : 0 ≤ b) {α : Type} (l : List α) :
    pySlice l a b = (l.drop a.toNat).take (b.toNat - a.toNat) := by
  unfold pySlice pySliceIdx
  rw [if_neg (by omega), if_neg (by omega)]
  exact drop_take_clamp l a.toNat b.toNat

/-- The enablement invariant maintained by every handler: a shown canvas
means an image has been loaded, and an enabled projection button means both
an image and a committed rectangle are present. -/
abbrev EnabledInv (s : WState) : Prop :=
  (s.canvasShown = true → s.image ≠ none)
    ∧ (s.projEnabled = true → s.image ≠ none ∧ s.last_rect_patch ≠ none)

lemma enabledInv_step (s : WState) (e : Ev) (h : EnabledInv s) : EnabledInv (step s e) := by
  obtain ⟨h1, h2⟩ := h
  cases e with
  | load img =>
      constructor
      · intro _; simp [step, browseFile]
      · intro hp; simp [step, browseFile] at hp
  | loadCancel => exact ⟨h1, h2⟩
  | trigger => exact ⟨h1, h2⟩
  | release inB p => exact ⟨h1, h2⟩
  | motion inB p =>
      show EnabledInv (imageOnMotion s inB p)
      unfold imageOnMotion
      cases hc : s.canvasShown && inB with
      | false => exact ⟨h1, h2⟩
      | true =>
          cases hsp : s.start_point with
          | none => exact ⟨h1, h2⟩
          | some sp => exact ⟨h1, h2⟩
  | press inB p =>
      show EnabledInv (imagePressed s inB p)
      unfold imagePressed
      cases hc : s.canvasShown && inB with
      | false => exact ⟨h1, h2⟩
      | true =>
          have hcs : s.canvasShown = true := (Bool.and_eq_true _ _).mp hc |>.1
          cases hsp : s.start_point with
          | none =>
              constructor
              · intro _; exact h1 hcs
              · intro hp; exact absurd hp (by simp)
          | some sp =>
              constructor
              · intro _; exact h1 hcs
              · intro _; exact ⟨h1 hcs, by simp⟩

lemma foldl_inv (P : WState → Prop) (hstep : ∀ s e, P s → P (step s e)) :
    ∀ (l : List Ev) (s : WState), P s → P (l.foldl step s) := by
  intro l
  induction l with
  | nil => intro s hs; exact hs
  | cons e l ih => intro s hs; exact ih (step s e) (hstep s e hs)

lemma run_enabledInv (l : List Ev) : EnabledInv (run l) :=
  foldl_inv EnabledInv (fun s e hs => enabledInv_step s e hs) l init
    ⟨fun hc => absurd hc (by simp [init]), fun hp => absurd hp (by simp [init])⟩

/-! ### Claims -/

/-- C1: the claim says a constant image (max == min) must produce a defined
constant display buffer without NaN/Inf reaching the renderer; the code
divides by `max − min = 0`, so every display entry is the non-finite `none`
and this NaN buffer is exactly what is handed to `imshow`. Evaluation of
`browseFile` at the failing constant image `[[5, 5], [5, 5]]`. -/
theorem c1_constant_image_gives_nan_display :
    (browseFile init (.gray [[5, 5], [5, 5]])).display
      = some (.grayBuf [[none, none], [none, none]]) := by
  norm_num [browseFile, init, render, normalizeGray, npDiv, npMin, npMax, flat2,
    List.replicate]

/-- C2: with a loaded 2D image and a committed rectangle whose integer
bounds are `x0, x1, y0, y1` (nonnegative, as produced by clicks inside the
image axes), the projection is the per-row sum of rows `[y0, y1)` and
columns `[x0, x1)` with the silent clamping of Python slices; on the 4×4 example of the spec
with rows 1–3 and columns 0–4 it equals `[22, 38]`, and fully out-of-range
bounds are clamped to the whole array without error. -/
theorem c2_projection_row_sums (s : WState) (img : List (List ℚ)) (r : RectPatch)
    (hi : s.image = some (.gray img)) (hr : s.last_rect_patch = some r)
    (x0 x1 y0 y1 : ℤ) (hb : bboxBounds r = (x0, x1, y0, y1))
    (hx0 : 0 ≤ x0) (hx1 : 0 ≤ x1) (hy0 : 0 ≤ y0) (hy1 : 0 ≤ y1) :
    showProjection s
        = some (((img.drop y0.toNat).take (y1.toNat - y0.toNat)).map
            (fun row => ((row.drop x0.toNat).take (x1.toNat - x0.toNat)).sum))
      ∧ showProjection (run [.load (.gray ex4), .press true ⟨0, 1⟩, .press true ⟨4, 3⟩])
          = some [22, 38]
      ∧ showProjection (run [.load (.gray ex4), .press true ⟨0, 0⟩, .press true ⟨10, 10⟩])
          = some [6, 22, 38, 54] := by
  refine ⟨?_, ?_, ?_⟩
  · have e1 : (bboxBounds r).1 = x0 := by rw [hb]
    have e2 : (bboxBounds r).2.1 = x1 := by rw [hb]
    have e3 : (bboxBounds r).2.2.1 = y0 := by rw [hb]
    have e4 : (bboxBounds r).2.2.2 = y1 := by rw [hb]
    simp only [showProjection, hi, hr, toGray, grayProj]
    rw [e3, e4]
    simp only [e1, e2, pySlice_nonneg x0 x1 hx0 hx1, pySlice_nonneg y0 y1 hy0 hy1,
      List.map_map]
    rfl
  · norm_num [run, step, browseFile, imagePressed, init, commitRect, showProjection,
      grayProj, toGray, bboxBounds, pyInt, pySlice, pySliceIdx, ex4, Int.toNat]
  · norm_num [run, step, browseFile, imagePressed, init, commitRect, showProjection,
      grayProj, toGray, bboxBounds, pyInt, pySlice, pySliceIdx, ex4, Int.toNat]

/-- C2 witness: the general row-sum form evaluated on the 4×4 example trace of the spec with bounds `(0, 4, 1, 3)`. -/
theorem c2_witness :
    showProjection (run [.load (.gray ex4), .press true ⟨0, 1⟩, .press true ⟨4, 3⟩])
      = some (((ex4.drop (1 : ℤ).toNat).take ((3 : ℤ).toNat - (1 : ℤ).toNat)).map
          (fun row => ((row.drop (0 : ℤ).toNat).take ((4 : ℤ).toNat - (0 : ℤ).toNat)).sum)) :=
  (c2_projection_row_sums
      (run [.load (.gray ex4), .press true ⟨0, 1⟩, .press true ⟨4, 3⟩])
      ex4 (commitRect ⟨0, 1⟩ ⟨4, 3⟩) rfl rfl 0 4 1 3
      (by norm_num [bboxBounds, commitRect, pyInt])
      (by norm_num) (by norm_num) (by norm_num) (by norm_num)).1

/-- C3: for a 2D image with max > min, the display buffer computed on load
is the elementwise `(p − min) / (max − min)`, every entry is a finite value
in `[0, 1]`, and this buffer is what `browseFile` stores for the renderer. -/
theorem c3_normalized_display_in_unit_interval (img : List (List ℚ))
    (h : npMin img < npMax img) :
    normalizeGray img
        = img.map (fun row => row.map
            (fun p => some ((p - npMin img) / (npMax img - npMin img))))
      ∧ (∀ row ∈ normalizeGray img, ∀ v ∈ row, ∃ q, v = some q ∧ 0 ≤ q ∧ q ≤ 1)
      ∧ (browseFile init (.gray img)).display = some (.grayBuf (normalizeGray img)) := by
  have hpos : 0 < npMax img - npMin img := sub_pos.mpr h
  have hden : npMax img - npMin img ≠ 0 := ne_of_gt hpos
  refine ⟨?_, ?_, rfl⟩
  · unfold normalizeGray npDiv
    simp [hden]
  · intro row hrow v hv
    unfold normalizeGray at hrow
    rcases List.mem_map.mp hrow with ⟨r, hr, rfl⟩
    rcases List.mem_map.mp hv with ⟨p, hp, rfl⟩
    have hmem : p ∈ flat2 img := List.mem_flatten.mpr ⟨r, hr, hp⟩
    refine ⟨(p - npMin img) / (npMax img - npMin img), ?_, ?_, ?_⟩
    · unfold npDiv; rw [if_neg hden]
    · exact div_nonneg (by linarith [npMin_le img p hmem]) hpos.le
    · rw [div_le_one hpos]; linarith [le_npMax img p hmem]

/-- C3 witness: the normalization formula on the concrete image `[[0, 2]]`,
whose range is positive. -/
theorem c3_witness :
    normalizeGray [[(0 : ℚ), 2]]
      = [[(0 : ℚ), 2]].map (fun row => row.map
          (fun p => some ((p - npMin [[(0 : ℚ), 2]]) / (npMax [[(0 : ℚ), 2]] - npMin [[(0 : ℚ), 2]])))) :=
  (c3_normalized_display_in_unit_interval [[(0 : ℚ), 2]]
      (by norm_num [npMin, npMax, flat2])).1

/-- C4 counterexample: after load, press, press, load the image buffer and
a committed rectangle reference both still exist (`browseFile` never clears
`last_rect_patch`), yet the projection action is disabled — refuting
"enabled if and only if both exist". -/
theorem c4_counterexample :
    (run [.load imgA, .press true ⟨0, 0⟩, .press true ⟨1, 1⟩, .load imgB]).projEnabled = false
      ∧ (run [.load imgA, .press true ⟨0, 0⟩, .press true ⟨1, 1⟩, .load imgB]).image = some imgB
      ∧ (run [.load imgA, .press true ⟨0, 0⟩, .press true ⟨1, 1⟩, .load imgB]).last_rect_patch
          = some ⟨0, 0, 1, 1⟩ := by
  norm_num [run, step, browseFile, imagePressed, init, commitRect, imgA, imgB]

/-- C4 (amended): in every reachable state, if "Show Projection" is enabled
then an image buffer and a committed rectangle both exist (the converse
fails, see the counterexample); loading disables the action, a first press
of a new selection disables it, and the second press enables it. -/
theorem c4_enabled_only_if_image_and_rect (l : List Ev) (s : WState) (img : Img)
    (p : Pt) (sp : Pt) :
    ((run l).projEnabled = true → (run l).image ≠ none ∧ (run l).last_rect_patch ≠ none)
      ∧ (browseFile s img).projEnabled = false
      ∧ (s.canvasShown = true → s.start_point = none →
            (imagePressed s true p).projEnabled = false)
      ∧ (s.canvasShown = true → s.start_point = some sp →
            (imagePressed s true p).projEnabled = true) := by
  refine ⟨(run_enabledInv l).2, rfl, ?_, ?_⟩
  · intro h1 h2; simp [imagePressed, h1, h2]
  · intro h1 h2; simp [imagePressed, h1, h2]

/-- C4 witness: the amended enablement facts applied to a concrete
loaded state and press. -/
theorem c4_witness :
    (imagePressed (browseFile init imgA) true ⟨0, 0⟩).projEnabled = false :=
  (c4_enabled_only_if_image_and_rect [] (browseFile init imgA) imgA ⟨0, 0⟩ ⟨0, 0⟩).2.2.1
    rfl rfl

/-- C5 counterexample: a successful load does not clear the pending start
point, nor the committed-rectangle reference — refuting "any prior
selection state (committed rectangle and any pending start point) is
cleared". -/
theorem c5_counterexample :
    (run [.load imgA, .press true ⟨2, 3⟩, .load imgB]).start_point = some ⟨2, 3⟩
      ∧ (run [.load imgA, .press true ⟨2, 3⟩, .press true ⟨4, 5⟩, .load imgB]).last_rect_patch
          = some ⟨2, 3, 2, 2⟩ := by
  norm_num [run, step, browseFile, imagePressed, init, commitRect, imgA, imgB]

/-- C5 (amended): after every successful load the image buffer is wholly
replaced, the display buffer is recomputed, the status display is reset to
its idle text, the canvas is shown and the projection action is disabled;
the pending start point, the preview patch and the committed-rectangle
reference are left untouched (only their visuals are wiped by the canvas
clear). -/
theorem c5_load_replaces_image_resets_status (s : WState) (img : Img) :
    (browseFile s img).image = some img
      ∧ (browseFile s img).display = some (render img)
      ∧ (browseFile s img).coordText = .idle
      ∧ (browseFile s img).projEnabled = false
      ∧ (browseFile s img).canvasShown = true
      ∧ (browseFile s img).start_point = s.start_point
      ∧ (browseFile s img).rect_patch = s.rect_patch
      ∧ (browseFile s img).last_rect_patch = s.last_rect_patch :=
  ⟨rfl, rfl, rfl, rfl, rfl, rfl, rfl, rfl⟩

/-- C6: from any state with the canvas shown and no selection in progress,
two presses inside the image bounds go Idle → Pending(start) → Idle,
removing the old committed rectangle on the first press and leaving exactly
the one new committed rectangle on the second, which also enables
projection; a press outside the image bounds changes nothing in any state. -/
theorem c6_two_presses_commit_rectangle (s : WState) (p1 p2 : Pt)
    (hs : s.canvasShown = true) (hidle : s.start_point = none) :
    (imagePressed s true p1).start_point = some p1
      ∧ (imagePressed s true p1).last_rect_patch = none
      ∧ (imagePressed s true p1).projEnabled = false
      ∧ (imagePressed (imagePressed s true p1) true p2).start_point = none
      ∧ (imagePressed (imagePressed s true p1) true p2).last_rect_patch
          = some (commitRect p1 p2)
      ∧ (imagePressed (imagePressed s true p1) true p2).projEnabled = true
      ∧ (∀ (t : WState) (q : Pt), imagePressed t false q = t) := by
  refine ⟨?_, ?_, ?_, ?_, ?_, ?_, ?_⟩ <;>
    simp [imagePressed, hs, hidle]

/-- C6 witness: the two-press gesture run from a freshly loaded state. -/
theorem c6_witness :
    (imagePressed (browseFile init imgA) true ⟨0, 0⟩).start_point = some ⟨0, 0⟩ :=
  (c6_two_presses_commit_rectangle (browseFile init imgA) ⟨0, 0⟩ ⟨1, 1⟩ rfl rfl).1

/-- C7: invoking the projection trigger with no image buffer or no
committed rectangle is a silent no-op: no popup data is produced and the
state is unchanged. -/
theorem c7_trigger_noop_without_image_or_rect (s : WState)
    (h : s.image = none ∨ s.last_rect_patch = none) :
    showProjection s = none ∧ step s .trigger = s := by
  refine ⟨?_, rfl⟩
  unfold showProjection
  rcases h with h | h
  · rw [h]
  · rw [h]; cases s.image <;> rfl

/-- C7 witness: the trigger is a no-op in the start-up state, which has no
image. -/
theorem c7_witness : showProjection init = none ∧ step init .trigger = init :=
  c7_trigger_noop_without_image_or_rect init (Or.inl rfl)

/-- C8: triggering projection on a multi-channel image first converts it to
single-channel luminance and the per-row sums are computed over that array;
concretely, a single pure-red pixel projects to its luminance 76, not to
the naive per-channel sum 255. -/
theorem c8_color_converted_to_luminance (s : WState) (c : List (List RGBPix))
    (r : RectPatch) (hi : s.image = some (.color c)) (hr : s.last_rect_patch = some r) :
    showProjection s
        = some (grayProj (c.map (fun row => row.map (fun px => (lum px : ℚ)))) r)
      ∧ showProjection
            (run [.load (.color [[(255, 0, 0)]]), .press true ⟨0, 0⟩, .press true ⟨1, 1⟩])
          = some [76]
      ∧ ((76 : ℚ) ≠ 255 + 0 + 0) := by
  refine ⟨?_, ?_, by norm_num⟩
  · unfold showProjection
    rw [hi, hr]
    rfl
  · norm_num [run, step, browseFile, imagePressed, init, commitRect, showProjection,
      grayProj, toGray, bboxBounds, pyInt, pySlice, pySliceIdx, lum, Int.toNat]

/-- C8 witness: the luminance form evaluated on the single-red-pixel
trace. -/
theorem c8_witness :
    showProjection
        (run [.load (.color [[(255, 0, 0)]]), .press true ⟨0, 0⟩, .press true ⟨1, 1⟩])
      = some (grayProj
          ([[((255 : ℕ), (0 : ℕ), (0 : ℕ))]].map (fun row => row.map (fun px => (lum px : ℚ))))
          (commitRect ⟨0, 0⟩ ⟨1, 1⟩)) :=
  (c8_color_converted_to_luminance
      (run [.load (.color [[(255, 0, 0)]]), .press true ⟨0, 0⟩, .press true ⟨1, 1⟩])
      [[(255, 0, 0)]] (commitRect ⟨0, 0⟩ ⟨1, 1⟩) rfl rfl).1

/-- C9 counterexample: committing a rectangle from two presses at the same
point `(5/2, 7/2)` yields normalized bounds `(2, 2, 3, 3)`, so `x0 < x1`
and `y0 < y1` fail — the normalization is only non-strict. -/
theorem c9_counterexample :
    (run [.load imgA, .press true ⟨5/2, 7/2⟩, .press true ⟨5/2, 7/2⟩]).last_rect_patch
        = some (commitRect ⟨5/2, 7/2⟩ ⟨5/2, 7/2⟩)
      ∧ bboxBounds (commitRect ⟨5/2, 7/2⟩ ⟨5/2, 7/2⟩) = (2, 2, 3, 3)
      ∧ ¬((2 : ℤ) < 2)
      ∧ ¬((3 : ℤ) < 3) := by
  refine ⟨?_, ?_, by norm_num, by norm_num⟩
  · norm_num [run, step, browseFile, imagePressed, init, imgA]
  · norm_num [bboxBounds, commitRect, pyInt]

/-- C9 (amended): for every committed rectangle the two click points are
normalized into bounds with `x0 ≤ x1` and `y0 ≤ y1` (equality exactly when
the truncated coordinates coincide), and swapping the order of the two
clicks yields identical normalized bounds. -/
theorem c9_bounds_normalized_order_free (p q : Pt) :
    bboxBounds (commitRect p q) = bboxBounds (commitRect q p)
      ∧ (bboxBounds (commitRect p q)).1 ≤ (bboxBounds (commitRect p q)).2.1
      ∧ (bboxBounds (commitRect p q)).2.2.1 ≤ (bboxBounds (commitRect p q)).2.2.2 := by
  have hx : p.x + (q.x - p.x) = q.x := by ring
  have hy : p.y + (q.y - p.y) = q.y := by ring
  have hx2 : q.x + (p.x - q.x) = p.x := by ring
  have hy2 : q.y + (p.y - q.y) = p.y := by ring
  unfold bboxBounds commitRect
  simp only [hx, hy, hx2, hy2]
  refine ⟨?_, pyInt_mono min_le_max, pyInt_mono min_le_max⟩
  rw [min_comm p.x q.x, max_comm p.x q.x, min_comm p.y q.y, max_comm p.y q.y]

/-- C10: the projection trigger is read-only: the state after the trigger
event is the state before it, in particular the image buffer, the pending
start point and the committed rectangle are unchanged. -/
theorem c10_trigger_readonly (s : WState) :
    step s .trigger = s
      ∧ (step s .trigger).image = s.image
      ∧ (step s .trigger).start_point = s.start_point
      ∧ (step s .trigger).last_rect_patch = s.last_rect_patch :=
  ⟨rfl, rfl, rfl, rfl⟩

end DiffProj
